import Mathlib

/-!
Verification of the realtime relay core of `Server.js` (lines 147-186):
the presence registry `onlineUsers`, the connection lifecycle, the
`sendmessage` relay and the five WebRTC signaling handlers.

The JavaScript object `onlineUsers` is embedded as an association list
with string keys in insertion order (JS objects keep string keys in
insertion order and hold at most one binding per key).  Property writes
replace the binding in place, `delete` removes it, reads return the
bound value or `undefined` (here `Option`).
-/

namespace Network

/-- User identity: an opaque string, `socket.handshake.query.userId`. -/
abbrev Identity := String

/-- Connection handle: `socket.id`, a nonempty opaque string. -/
abbrev Handle := String

/-- The `onlineUsers` map: identity to socket id, insertion order kept. -/
abbrev Registry := List (Identity × Handle)

/-- Read `onlineUsers[k]`: the value stored at key `k`, if any. -/
def regLookup (r : Registry) (k : Identity) : Option Handle :=
  match r with
  | [] => none
  | (k', v) :: rest => if k' = k then some v else regLookup rest k

/-- Write `onlineUsers[k] = v`: replace the binding at `k` in place, or
append a fresh binding at the end (JS object assignment semantics). -/
def regSet (r : Registry) (k : Identity) (v : Handle) : Registry :=
  match r with
  | [] => [(k, v)]
  | (k', v') :: rest =>
    if k' = k then (k', v) :: rest else (k', v') :: regSet rest k v

/-- Execute `delete onlineUsers[k]`: remove the binding at `k`. -/
def regDelete (r : Registry) (k : Identity) : Registry :=
  match r with
  | [] => []
  | (k', v') :: rest =>
    if k' = k then regDelete rest k else (k', v') :: regDelete rest k

/-- JavaScript property-key coercion for `socket.handshake.query.userId`:
an absent query parameter is `undefined`, which indexing an object
coerces to the literal key string "undefined"; a present parameter is
used as the key verbatim (an empty string stays the key ""). -/
def queryKey : Option String → Identity
  | none => "undefined"
  | some s => s

/-- The `connection` handler prologue (Server.js 150-151):
`onlineUsers[userId] = socket.id` with `userId` taken from the
handshake query. -/
def onConnection (r : Registry) (uid : Option String) (sid : Handle) : Registry :=
  regSet r (queryKey uid) sid

/-- The `disconnect` handler (Server.js 153):
`delete onlineUsers[userId]` — unconditional, the stored handle is not
compared with the disconnecting socket's id. -/
def onDisconnect (r : Registry) (uid : Option String) : Registry :=
  regDelete r (queryKey uid)

/-- JS truthiness of a string (`if (targetSocket) ...`): every string is
truthy except the empty one. -/
def truthy (s : String) : Bool := s != ""

/-- A chat message as handed to the store (`new Message({sender, receiver,
text})`; `createdAt` defaults inside the store). -/
structure ChatMessage where
  sender : Identity
  receiver : Identity
  text : String
deriving DecidableEq, Repr

/-- An outbound socket event, tagged by wire name, with its target socket
and exactly the fields the code puts in the payload. -/
inductive OutEvent where
  | receivemessage (target : Handle) (sender : Identity) (text : String)
  | incomingCall (target : Handle) (fromId : Identity) (offer : String)
  | callAnswered (target : Handle) (fromId : Identity) (answer : String)
  | iceCandidate (target : Handle) (fromId : Identity) (candidate : String)
  | callRejected (target : Handle) (fromId : Identity)
  | callEnded (target : Handle) (fromId : Identity)
deriving DecidableEq, Repr

/-- One observable step a handler performs, in program order:
`save` is the call `new Message(...).save()`, `emit` is
`io.to(target).emit(...)`, `uncaught` marks an exception leaving the
handler with no catch (an unhandled promise rejection). -/
inductive Action where
  | save (m : ChatMessage)
  | emit (e : OutEvent)
  | uncaught
deriving DecidableEq, Repr

/-- Outcome of the awaited store write: the external store either
acknowledges the save or is unavailable and rejects it. -/
inductive StoreResult where
  | ok
  | unavailable
deriving DecidableEq, Repr

/-- The `sendmessage` handler (Server.js 155-159): await the store save
(no try/catch: a rejection escapes the handler), then look the receiver
up in `onlineUsers` and, if a socket is found, emit `receivemessage`
with fields sender and text. -/
def sendmessageHandler (r : Registry) (res : StoreResult)
    (sender receiver text : String) : List Action :=
  Action.save ⟨sender, receiver, text⟩ ::
    match res with
    | .unavailable => [Action.uncaught]
    | .ok =>
      match regLookup r receiver with
      | some h =>
        if truthy h then [Action.emit (.receivemessage h sender text)] else []
      | none => []

/-- The `call-user` handler (Server.js 161-164): forward as
`incoming-call` with fields from and offer if the target is online. -/
def callUserHandler (r : Registry) (fromId tgt offer : String) : List Action :=
  match regLookup r tgt with
  | some h =>
    if truthy h then [Action.emit (.incomingCall h fromId offer)] else []
  | none => []

/-- The `answer-call` handler (Server.js 166-169): forward as
`call-answered` with fields from and answer if the target is online. -/
def answerCallHandler (r : Registry) (fromId tgt answer : String) : List Action :=
  match regLookup r tgt with
  | some h =>
    if truthy h then [Action.emit (.callAnswered h fromId answer)] else []
  | none => []

/-- The `ice-candidate` handler (Server.js 171-174): forward as
`ice-candidate` with fields from and candidate if the target is online. -/
def iceCandidateHandler (r : Registry) (fromId tgt candidate : String) : List Action :=
  match regLookup r tgt with
  | some h =>
    if truthy h then [Action.emit (.iceCandidate h fromId candidate)] else []
  | none => []

/-- The `reject-call` handler (Server.js 176-179): forward as
`call-rejected` with the single field from if the target is online. -/
def rejectCallHandler (r : Registry) (fromId tgt : String) : List Action :=
  match regLookup r tgt with
  | some h => if truthy h then [Action.emit (.callRejected h fromId)] else []
  | none => []

/-- The `end-call` handler (Server.js 181-184): forward as `call-ended`
with the single field from if the target is online. -/
def endCallHandler (r : Registry) (fromId tgt : String) : List Action :=
  match regLookup r tgt with
  | some h => if truthy h then [Action.emit (.callEnded h fromId)] else []
  | none => []

/-- Every socket event the relay core reacts to, with the data the
corresponding handler destructures from it. -/
inductive InEvent where
  | connect (uid : Option String) (sid : Handle)
  | disconnect (uid : Option String)
  | sendmessage (res : StoreResult) (sender receiver text : String)
  | callUser (fromId tgt offer : String)
  | answerCall (fromId tgt answer : String)
  | iceCandidate (fromId tgt candidate : String)
  | rejectCall (fromId tgt : String)
  | endCall (fromId tgt : String)

/-- One dispatch step of the relay: the event's handler runs against the
current `onlineUsers` map and yields the updated map together with the
observable actions it performed, in program order. -/
def serverStep (r : Registry) (e : InEvent) : Registry × List Action :=
  match e with
  | .connect uid sid => (onConnection r uid sid, [])
  | .disconnect uid => (onDisconnect r uid, [])
  | .sendmessage res s rcv t => (r, sendmessageHandler r res s rcv t)
  | .callUser f tgt o => (r, callUserHandler r f tgt o)
  | .answerCall f tgt a => (r, answerCallHandler r f tgt a)
  | .iceCandidate f tgt c => (r, iceCandidateHandler r f tgt c)
  | .rejectCall f tgt => (r, rejectCallHandler r f tgt)
  | .endCall f tgt => (r, endCallHandler r f tgt)

/-- The registry produced by running a sequence of socket events from the
server start, where `onlineUsers` is the empty object. -/
def stepsRegistry (es : List InEvent) : Registry :=
  es.foldl (fun r e => (serverStep r e).1) []

/-- The store calls an action list performs, in order. -/
def saves (as : List Action) : List ChatMessage :=
  as.filterMap fun a =>
    match a with
    | .save m => some m
    | _ => none

/-- The forwarding step of the `sendmessage` handler in isolation: the
`receivemessage` event it emits for message `m` against registry `r`,
if any. -/
def fwdEvent (r : Registry) (m : ChatMessage) : Option OutEvent :=
  match regLookup r m.receiver with
  | some h => if truthy h then some (.receivemessage h m.sender m.text) else none
  | none => none

/-- State of a batch of overlapping async `sendmessage` handlers from one
sender: save requests issued to the store but not yet acknowledged
(keyed by invocation index), the store log in write order, and the
outbound events in emission order. -/
structure ExecState where
  pending : List (Nat × ChatMessage)
  log : List ChatMessage
  out : List OutEvent
deriving DecidableEq, Repr

/-- The store acknowledges the pending save of invocation `i`: the message
is written to the store and the suspended handler resumes past its
`await`, forwarding to the receiver if one is online.  Acknowledging an
index with no pending save changes nothing. -/
def completeSave (r : Registry) (s : ExecState) (i : Nat) : ExecState :=
  match s.pending.find? (fun p => p.1 == i) with
  | none => s
  | some ie =>
    { pending := s.pending.filter fun p => p.1 != i
      log := s.log ++ [ie.2]
      out := s.out ++ (fwdEvent r ie.2).toList }

/-- Run one concurrent execution of the `sendmessage` handlers for the
events `es`, invoked in list order (each handler synchronously issues
its store save, then suspends at the `await`); the store acknowledges
the saves in the order given by `sched`. -/
def runSchedule (r : Registry) (es : List ChatMessage) (sched : List Nat) : ExecState :=
  sched.foldl (completeSave r) ⟨es.enum, [], []⟩

/- Helper lemmas about the registry. -/

theorem regLookup_regSet_self (r : Registry) (k : Identity) (v : Handle) :
    regLookup (regSet r k v) k = some v := by
  induction r with
  | nil => simp [regSet, regLookup]
  | cons p rest ih =>
    obtain ⟨k', v'⟩ := p
    by_cases hk : k' = k
    · simp [regSet, hk, regLookup]
    · simp [regSet, hk, regLookup, ih]

theorem regLookup_regSet_ne (r : Registry) (k y : Identity) (v : Handle)
    (hy : y ≠ k) : regLookup (regSet r k v) y = regLookup r y := by
  have hky : ¬ k = y := fun h => hy h.symm
  induction r with
  | nil => simp [regSet, regLookup, hky]
  | cons p rest ih =>
    obtain ⟨k', v'⟩ := p
    by_cases hk : k' = k
    · subst hk
      simp [regSet, regLookup, hky]
    · simp [regSet, hk, regLookup, ih]

theorem regLookup_regDelete_self (r : Registry) (k : Identity) :
    regLookup (regDelete r k) k = none := by
  induction r with
  | nil => simp [regDelete, regLookup]
  | cons p rest ih =>
    obtain ⟨k', v'⟩ := p
    by_cases hk : k' = k
    · simp [regDelete, hk, ih]
    · simp [regDelete, hk, regLookup, ih]

theorem regLookup_regDelete_ne (r : Registry) (k y : Identity)
    (hy : y ≠ k) : regLookup (regDelete r k) y = regLookup r y := by
  have hky : ¬ k = y := fun h => hy h.symm
  induction r with
  | nil => simp [regDelete]
  | cons p rest ih =>
    obtain ⟨k', v'⟩ := p
    by_cases hk : k' = k
    · subst hk
      simp [regDelete, regLookup, hky, ih]
    · simp [regDelete, hk, regLookup, ih]

theorem regSet_keys (r : Registry) (k : Identity) (v : Handle) :
    (regSet r k v).map Prod.fst =
      if k ∈ r.map Prod.fst then r.map Prod.fst else r.map Prod.fst ++ [k] := by
  induction r with
  | nil => simp [regSet]
  | cons p rest ih =>
    obtain ⟨k', v'⟩ := p
    by_cases hk : k' = k
    · subst hk
      simp [regSet]
    · have hkk' : ¬ k = k' := fun h => hk h.symm
      by_cases hmem : k ∈ rest.map Prod.fst <;>
        simp [regSet, hk, ih, hmem, hkk']

theorem regDelete_keys (r : Registry) (k : Identity) :
    (regDelete r k).map Prod.fst = (r.map Prod.fst).filter (fun x => x ≠ k) := by
  induction r with
  | nil => simp [regDelete]
  | cons p rest ih =>
    obtain ⟨k', v'⟩ := p
    by_cases hk : k' = k
    · simp [regDelete, hk, ih]
    · simp [regDelete, hk, ih]

theorem regSet_keys_nodup (r : Registry) (k : Identity) (v : Handle)
    (h : (r.map Prod.fst).Nodup) : ((regSet r k v).map Prod.fst).Nodup := by
  rw [regSet_keys]
  by_cases hmem : k ∈ r.map Prod.fst
  · simpa [hmem] using h
  · simp only [hmem, if_false]
    refine List.Nodup.append h (List.nodup_singleton k) ?_
    intro x hx hxk
    simp only [List.mem_singleton] at hxk
    exact hmem (hxk ▸ hx)

theorem regDelete_keys_nodup (r : Registry) (k : Identity)
    (h : (r.map Prod.fst).Nodup) : ((regDelete r k).map Prod.fst).Nodup := by
  rw [regDelete_keys]
  exact h.filter _

theorem serverStep_keys_nodup (r : Registry) (e : InEvent)
    (h : (r.map Prod.fst).Nodup) :
    (((serverStep r e).1).map Prod.fst).Nodup := by
  cases e with
  | connect uid sid => exact regSet_keys_nodup r (queryKey uid) sid h
  | disconnect uid => exact regDelete_keys_nodup r (queryKey uid) h
  | sendmessage res s rcv t => exact h
  | callUser f tgt o => exact h
  | answerCall f tgt a => exact h
  | iceCandidate f tgt c => exact h
  | rejectCall f tgt => exact h
  | endCall f tgt => exact h

theorem foldl_serverStep_keys_nodup (es : List InEvent) :
    ∀ r : Registry, (r.map Prod.fst).Nodup →
      ((es.foldl (fun r e => (serverStep r e).1) r).map Prod.fst).Nodup := by
  induction es with
  | nil => intro r h; simpa using h
  | cons e tl ih =>
    intro r h
    exact ih _ (serverStep_keys_nodup r e h)

theorem enumFrom_filter_ne (j : Nat) :
    ∀ (tl : List ChatMessage) (k : Nat), j < k →
      (tl.enumFrom k).filter (fun p => p.1 != j) = tl.enumFrom k := by
  intro tl
  induction tl with
  | nil => intro k hk; simp [List.enumFrom]
  | cons e tl ih =>
    intro k hk
    have hkj : (k != j) = true := by
      simp only [bne_iff_ne, ne_eq]
      omega
    simp only [List.enumFrom, List.filter_cons, hkj, if_true]
    rw [ih (k + 1) (by omega)]

theorem run_inOrder_aux (r : Registry) :
    ∀ (es : List ChatMessage) (k : Nat) (lg : List ChatMessage) (ot : List OutEvent),
      (List.range' k es.length).foldl (completeSave r) ⟨es.enumFrom k, lg, ot⟩
        = ⟨[], lg ++ es, ot ++ es.filterMap (fwdEvent r)⟩ := by
  intro es
  induction es with
  | nil =>
    intro k lg ot
    simp [List.range', List.enumFrom]
  | cons e tl ih =>
    intro k lg ot
    have hlen : (e :: tl).length = tl.length + 1 := rfl
    rw [hlen, List.range'_succ, List.foldl_cons]
    have hstep :
        completeSave r ⟨(e :: tl).enumFrom k, lg, ot⟩ k
          = ⟨tl.enumFrom (k + 1), lg ++ [e], ot ++ (fwdEvent r e).toList⟩ := by
      simp only [List.enumFrom, completeSave, List.find?]
      have hkk : (k == k) = true := by simp
      simp only [hkk, List.filter_cons, bne_self_eq_false]
      rw [enumFrom_filter_ne k tl (k + 1) (by omega)]
      simp
    rw [hstep, ih (k + 1) (lg ++ [e]) (ot ++ (fwdEvent r e).toList)]
    have hfm : (fwdEvent r e).toList ++ tl.filterMap (fwdEvent r)
        = (e :: tl).filterMap (fwdEvent r) := by
      rw [List.filterMap_cons]
      cases fwdEvent r e <;> simp
    rw [List.append_assoc, List.append_assoc, hfm]
    simp

/-- Claim C1, counterexample: the code's disconnect handler has no
stale-disconnect guard.  After a first connection registers identity "X"
with handle "h1" and a newer connection re-registers "X" with handle
"h2", the stale disconnect of the first connection deletes the entry for
"X" outright, so lookup of "X" returns nothing rather than "h2" — the
claim fails at this input. -/
theorem c1_counterexample :
    regLookup (onDisconnect (onConnection (onConnection [] (some "X") "h1")
        (some "X") "h2") (some "X")) "X" = none ∧
    regLookup (onDisconnect (onConnection (onConnection [] (some "X") "h1")
        (some "X") "h2") (some "X")) "X" ≠ some "h2" := by
  decide

/-- Claim C1, amended: the disconnect handler removes the entry for the
disconnecting socket's identity unconditionally — it never compares the
stored handle with the disconnecting connection's handle.  In the stale
scenario register(X, h1), register(X, h2), disconnect of the first
connection, the entry for X is gone: lookup(X) returns nothing, not h2;
and in general a disconnect empties the entry of its identity whatever
handle is stored. -/
theorem c1_amended_unconditional_delete (r : Registry) (X : Identity)
    (h1 h2 : Handle) :
    regLookup (onDisconnect (onConnection (onConnection r (some X) h1)
        (some X) h2) (some X)) X = none ∧
    (∀ (r' : Registry) (uid : Option String),
      regLookup (onDisconnect r' uid) (queryKey uid) = none) :=
  ⟨regLookup_regDelete_self _ X,
   fun r' uid => regLookup_regDelete_self r' (queryKey uid)⟩

/-- Claim C4: the registry is last-writer-wins — after register(X, h1)
then register(X, h2) the lookup of X returns h2 — and every registry
reachable from server start (the empty map) holds at most one entry per
identity: its key list is duplicate-free at every instant. -/
theorem c4_last_writer_wins :
    (∀ (r : Registry) (X : Identity) (h1 h2 : Handle),
      regLookup (onConnection (onConnection r (some X) h1) (some X) h2) X
        = some h2) ∧
    (∀ es : List InEvent, ((stepsRegistry es).map Prod.fst).Nodup) := by
  constructor
  · intro r X h1 h2
    exact regLookup_regSet_self (regSet r X h1) X h2
  · intro es
    exact foldl_serverStep_keys_nodup es [] (by simp)

/-- Claim C6, counterexample: a connection with an absent identity is in
fact registered — indexing the map with `undefined` coerces the key to
the literal string "undefined" — so lookup of the identity "undefined"
returns that connection's handle, refuting "nothing registers it, no
lookup ever returns its handle". -/
theorem c6_counterexample :
    regLookup (onConnection [] none "s1") "undefined" = some "s1" := by
  decide

/-- Claim C6, amended: a connection supplying an absent identity is
accepted and registered under the literal key "undefined" (an empty
identity under the literal key ""); lookup of that literal key returns
the connection's handle, while lookup of every other identity is
unaffected by the registration. -/
theorem c6_amended_registered_under_literal_key (r : Registry) (sid : Handle) :
    regLookup (onConnection r none sid) "undefined" = some sid ∧
    regLookup (onConnection r (some "") sid) "" = some sid ∧
    (∀ Y : Identity, Y ≠ "undefined" →
      regLookup (onConnection r none sid) Y = regLookup r Y) ∧
    (∀ Y : Identity, Y ≠ "" →
      regLookup (onConnection r (some "") sid) Y = regLookup r Y) := by
  refine ⟨regLookup_regSet_self r "undefined" sid,
    regLookup_regSet_self r "" sid, ?_, ?_⟩
  · intro Y hY
    exact regLookup_regSet_ne r "undefined" Y sid hY
  · intro Y hY
    exact regLookup_regSet_ne r "" Y sid hY

/-- Witness for the amended C6 theorem at a concrete connection with no
identity: reachable at the key "undefined", invisible at another key. -/
theorem c6_witness :
    regLookup (onConnection [] none "s1") "undefined" = some "s1" ∧
    regLookup (onConnection [] none "s1") "u7" = regLookup [] "u7" :=
  ⟨(c6_amended_registered_under_literal_key [] "s1").1,
   (c6_amended_registered_under_literal_key [] "s1").2.2.1 "u7" (by decide)⟩

/-- Claim C9: only the connection lifecycle mutates the registry — the
`sendmessage` handler and all five signaling handlers return the
identity-to-handle map unchanged — and a lifecycle operation for one
identity leaves the entry of every other identity unchanged. -/
theorem c9_registry_frame :
    (∀ (r : Registry) (res : StoreResult) (s rcv t f tgt p : String),
      (serverStep r (.sendmessage res s rcv t)).1 = r ∧
      (serverStep r (.callUser f tgt p)).1 = r ∧
      (serverStep r (.answerCall f tgt p)).1 = r ∧
      (serverStep r (.iceCandidate f tgt p)).1 = r ∧
      (serverStep r (.rejectCall f tgt)).1 = r ∧
      (serverStep r (.endCall f tgt)).1 = r) ∧
    (∀ (r : Registry) (uid : Option String) (sid : Handle) (Y : Identity),
      Y ≠ queryKey uid →
      regLookup (serverStep r (.connect uid sid)).1 Y = regLookup r Y ∧
      regLookup (serverStep r (.disconnect uid)).1 Y = regLookup r Y) := by
  constructor
  · intro r res s rcv t f tgt p
    exact ⟨rfl, rfl, rfl, rfl, rfl, rfl⟩
  · intro r uid sid Y hY
    exact ⟨regLookup_regSet_ne r (queryKey uid) Y sid hY,
           regLookup_regDelete_ne r (queryKey uid) Y hY⟩

/-- Witness for the C9 frame theorem at concrete states: a sendmessage
step keeps the map intact, and connect and disconnect of "u2" leave the
entry of "u1" as it was. -/
theorem c9_witness :
    (serverStep [("u1", "s1")] (.sendmessage .ok "u1" "u2" "hi")).1
      = [("u1", "s1")] ∧
    regLookup (serverStep [("u1", "s1")] (.connect (some "u2") "s2")).1 "u1"
      = regLookup [("u1", "s1")] "u1" ∧
    regLookup (serverStep [("u1", "s1")] (.disconnect (some "u2"))).1 "u1"
      = regLookup [("u1", "s1")] "u1" :=
  ⟨(c9_registry_frame.1 [("u1", "s1")] .ok "u1" "u2" "hi" "f" "t" "p").1,
   (c9_registry_frame.2 [("u1", "s1")] (some "u2") "s2" "u1" (by decide)).1,
   (c9_registry_frame.2 [("u1", "s1")] (some "u2") "s2" "u1" (by decide)).2⟩

/-- Claim C2: every `sendmessage` event calls the store exactly once with
the message (sender, receiver, text), and that call is the handler's
very first action — hence before any forwarding attempt — whatever the
registry contents (in particular when the receiver is absent from it)
and whatever the store outcome. -/
theorem c2_persist_once_before_forward (r : Registry) (res : StoreResult)
    (s rcv t : String) :
    saves (sendmessageHandler r res s rcv t) = [⟨s, rcv, t⟩] ∧
    (sendmessageHandler r res s rcv t).head? = some (.save ⟨s, rcv, t⟩) := by
  constructor
  · cases res with
    | unavailable => simp [sendmessageHandler, saves]
    | ok =>
      cases hl : regLookup r rcv with
      | none => simp [sendmessageHandler, saves, hl]
      | some h =>
        by_cases ht : truthy h <;> simp [sendmessageHandler, saves, hl, ht]
  · simp [sendmessageHandler]

/-- Claim C3: each of the five inbound signaling events routes on the
target identity: when the target is registered (its stored handle being
a socket id, hence a nonempty string), exactly one outbound event is
emitted to that handle, under the mapped name and carrying exactly the
specified fields; when the target is unregistered, no event is
emitted. -/
theorem c3_signaling_routing (r : Registry) (f tgt p : String) :
    (∀ h : Handle, regLookup r tgt = some h → truthy h = true →
      callUserHandler r f tgt p = [Action.emit (.incomingCall h f p)] ∧
      answerCallHandler r f tgt p = [Action.emit (.callAnswered h f p)] ∧
      iceCandidateHandler r f tgt p = [Action.emit (.iceCandidate h f p)] ∧
      rejectCallHandler r f tgt = [Action.emit (.callRejected h f)] ∧
      endCallHandler r f tgt = [Action.emit (.callEnded h f)]) ∧
    (regLookup r tgt = none →
      callUserHandler r f tgt p = [] ∧
      answerCallHandler r f tgt p = [] ∧
      iceCandidateHandler r f tgt p = [] ∧
      rejectCallHandler r f tgt = [] ∧
      endCallHandler r f tgt = []) := by
  constructor
  · intro h hl ht
    refine ⟨?_, ?_, ?_, ?_, ?_⟩ <;>
      simp [callUserHandler, answerCallHandler, iceCandidateHandler,
        rejectCallHandler, endCallHandler, hl, ht]
  · intro hl
    refine ⟨?_, ?_, ?_, ?_, ?_⟩ <;>
      simp [callUserHandler, answerCallHandler, iceCandidateHandler,
        rejectCallHandler, endCallHandler, hl]

/-- Witness for the C3 routing theorem: with "u2" registered at socket
"s2", a call-user from "u1" emits exactly one incoming-call to "s2";
against the empty registry an end-call emits nothing. -/
theorem c3_witness :
    callUserHandler [("u2", "s2")] "u1" "u2" "O"
      = [Action.emit (.incomingCall "s2" "u1" "O")] ∧
    endCallHandler [] "u1" "u2" = [] :=
  ⟨((c3_signaling_routing [("u2", "s2")] "u1" "u2" "O").1 "s2"
      (by decide) (by decide)).1,
   ((c3_signaling_routing [] "u1" "u2" "O").2 (by decide)).2.2.2.2⟩

/-- Claim C5 at the failing input: with "u2" online and the store
unavailable, the `sendmessage` handler calls the store and then the
rejection leaves the handler uncaught — there is no try/catch, no log
and no report — and nothing is forwarded.  The code thus matches the
claim's "not forwarded" part but contradicts its "failure is reported
to the caller/logs" part, and the escaped rejection is an unhandled
promise rejection, which terminates a default-configured Node process. -/
theorem c5_store_failure_uncaught :
    sendmessageHandler [("u2", "s2")] .unavailable "u1" "u2" "hi"
      = [Action.save ⟨"u1", "u2", "hi"⟩, Action.uncaught] ∧
    (∀ e : OutEvent,
      Action.emit e ∉ sendmessageHandler [("u2", "s2")] .unavailable "u1" "u2" "hi") := by
  constructor
  · rfl
  · intro e
    simp [sendmessageHandler]

/-- Claim C7: when the target identity has no registry entry, a
sendmessage performs only its store save — no outbound event, no
exception raised towards the sender — and each of the five signaling
handlers performs nothing at all: the miss is a silent no-op. -/
theorem c7_lookup_miss_silent (r : Registry) (s x t f p : String)
    (hx : regLookup r x = none) :
    sendmessageHandler r .ok s x t = [Action.save ⟨s, x, t⟩] ∧
    Action.uncaught ∉ sendmessageHandler r .ok s x t ∧
    callUserHandler r f x p = [] ∧
    answerCallHandler r f x p = [] ∧
    iceCandidateHandler r f x p = [] ∧
    rejectCallHandler r f x = [] ∧
    endCallHandler r f x = [] := by
  refine ⟨?_, ?_, ?_, ?_, ?_, ?_, ?_⟩ <;>
    simp [sendmessageHandler, callUserHandler, answerCallHandler,
      iceCandidateHandler, rejectCallHandler, endCallHandler, hx]

/-- Witness for the C7 theorem against the empty registry. -/
theorem c7_witness :
    sendmessageHandler [] .ok "u1" "u2" "hi"
      = [Action.save ⟨"u1", "u2", "hi"⟩] ∧
    Action.uncaught ∉ sendmessageHandler [] .ok "u1" "u2" "hi" ∧
    callUserHandler [] "u1" "u2" "O" = [] ∧
    answerCallHandler [] "u1" "u2" "A" = [] ∧
    iceCandidateHandler [] "u1" "u2" "C" = [] ∧
    rejectCallHandler [] "u1" "u2" = [] ∧
    endCallHandler [] "u1" "u2" = [] :=
  c7_lookup_miss_silent [] "u1" "u2" "hi" "u1" "O" rfl

/-- Claim C10: a self-addressed sendmessage is not special-cased — when
the sender's own identity is registered (at a socket id, a nonempty
string), the message is saved to the store and a receivemessage is
emitted back to the sender's own connection, and the registry is left
unchanged. -/
theorem c10_self_send (r : Registry) (s t : String) (h : Handle)
    (hs : regLookup r s = some h) (ht : truthy h = true) :
    serverStep r (.sendmessage .ok s s t)
      = (r, [Action.save ⟨s, s, t⟩, Action.emit (.receivemessage h s t)]) := by
  simp [serverStep, sendmessageHandler, hs, ht]

/-- Witness for the C10 self-send theorem: "u1" registered at "s1"
messages itself and receives it on its own socket. -/
theorem c10_witness :
    serverStep [("u1", "s1")] (.sendmessage .ok "u1" "u1" "hi")
      = ([("u1", "s1")],
         [Action.save ⟨"u1", "u1", "hi"⟩,
          Action.emit (.receivemessage "s1" "u1" "hi")]) :=
  c10_self_send [("u1", "s1")] "u1" "hi" "s1" (by decide) (by decide)

/-- Claim C8, counterexample: the code does not enforce per-sender
ordering across overlapping sends.  Two sendmessage events from sender
"u1" are invoked in order one-then-two, each handler issues its save and
suspends at the `await`; the schedule in which the store acknowledges
the second save first is a valid completion order, and under it the
store log and the forwards come out two-then-one — the reverse of
invocation order. -/
theorem c8_counterexample :
    List.Perm [1, 0] (List.range 2) ∧
    (runSchedule [("u2", "s2")]
        [⟨"u1", "u2", "one"⟩, ⟨"u1", "u2", "two"⟩] [1, 0]).log
      = [⟨"u1", "u2", "two"⟩, ⟨"u1", "u2", "one"⟩] ∧
    (runSchedule [("u2", "s2")]
        [⟨"u1", "u2", "one"⟩, ⟨"u1", "u2", "two"⟩] [1, 0]).log
      ≠ [⟨"u1", "u2", "one"⟩, ⟨"u1", "u2", "two"⟩] ∧
    (runSchedule [("u2", "s2")]
        [⟨"u1", "u2", "one"⟩, ⟨"u1", "u2", "two"⟩] [1, 0]).out
      = [.receivemessage "s2" "u1" "two", .receivemessage "s2" "u1" "one"] := by
  refine ⟨by decide, ?_, ?_, ?_⟩ <;> decide

/-- Claim C8, amended: within one sendmessage invocation the save always
precedes the forward, and messages from a single sender are persisted
and forwarded in the order the store acknowledges their saves; that
order coincides with invocation order exactly when the store
acknowledges the overlapping saves in issue order — which the code
assumes but does not enforce.  Under in-order acknowledgement the store
log equals the invocation sequence and the forwards follow it. -/
theorem c8_amended_order_follows_store (r : Registry) (es : List ChatMessage) :
    (runSchedule r es (List.range es.length)).log = es ∧
    (runSchedule r es (List.range es.length)).out
      = es.filterMap (fwdEvent r) := by
  have h := run_inOrder_aux r es 0 [] []
  rw [runSchedule, List.range_eq_range']
  have henum : es.enum = es.enumFrom 0 := rfl
  rw [henum, h]
  simp

end Network
